import Mathlib

/-!
Shallow embedding of the repository analyzer (`src/lib/gemini-api.ts`).

Conventions of the embedding:
* JavaScript values that flow out of `JSON.parse` are modelled by `JSValue`
  (numbers as `Int`: every value the claims exercise is integral; `NaN`
  arising from numeric coercion is modelled by `Option Int` with `none`).
* Remote fetches are modelled as oracles passed in explicitly:
  a directory listing oracle `String → Option (List Entry)` (`none` stands
  for a network error, a non-success status, or a non-array body — the
  source collapses all of these to an empty subtree), and a sample-content
  oracle `String → Option String` returning the already base64-decoded body.
* The brace characters are bound to named constants built with `Char.ofNat`.
-/

/-- Open brace character. -/
def braceOpen : Char := Char.ofNat 123

/-- Close brace character. -/
def braceClose : Char := Char.ofNat 125

/-- Model of a JavaScript value produced by `JSON.parse`. -/
inductive JSValue where
  | null : JSValue
  | bool : Bool → JSValue
  | num : Int → JSValue
  | str : String → JSValue
  | arr : List JSValue → JSValue
  | obj : List (String × JSValue) → JSValue
deriving Repr

/-- JavaScript truthiness of a parsed value (`0`, `""`, `false`, `null`
are falsy; arrays and objects are always truthy). -/
def truthy : JSValue → Bool
  | .null => false
  | .bool b => b
  | .num n => n != 0
  | .str s => s != ""
  | .arr _ => true
  | .obj _ => true

/-- Property lookup on an object literal; `JSON.parse` keeps the last
duplicate key, so the lookup returns the last binding. -/
def lookupLast : List (String × JSValue) → String → Option JSValue
  | [], _ => none
  | (k, v) :: rest, key =>
    match lookupLast rest key with
    | some r => some r
    | none => if k = key then some v else none

/-- JavaScript property access `v.k` (undefined on non-objects); also the
behaviour of optional chaining `v?.k` for every parsed value. -/
def jsGetField : JSValue → String → Option JSValue
  | .obj fields, k => lookupLast fields k
  | _, _ => none

/-- Chained access `v?.k` when `v` itself may be undefined. -/
def jsGetOpt (v : Option JSValue) (k : String) : Option JSValue :=
  v.bind (fun w => jsGetField w k)

/-- JavaScript `x || d`: the default applies when `x` is undefined or falsy. -/
def jsOr (x : Option JSValue) (d : JSValue) : JSValue :=
  match x with
  | some v => if truthy v then v else d
  | none => d

/-- JavaScript `ToNumber` on the value model, with `none` standing for
`NaN`.  Non-numeric strings and composite values coerce to `NaN` here. -/
def toNumber : JSValue → Option Int
  | .null => some 0
  | .bool b => some (if b then 1 else 0)
  | .num n => some n
  | .str s => if s = "" then some 0 else s.toInt?
  | .arr _ => none
  | .obj _ => none

/-- `architecture` record of the parsed analysis (`pattern` may be any
JavaScript value because the source does not type-check it). -/
structure ArchitectureM where
  pattern : JSValue
  components : List JSValue
deriving Repr

/-- `insights` record; `complexity` is `Option Int`, `none` meaning `NaN`. -/
structure InsightsM where
  codeQuality : JSValue
  complexity : Option Int
  performance : JSValue
deriving Repr

/-- Result shape assembled by `parseAnalysisResult`. -/
structure AnalysisResultM where
  summary : JSValue
  features : List JSValue
  architecture : ArchitectureM
  insights : InsightsM
  recommendations : List JSValue
deriving Repr

/-- Index of the first open brace in the character list, mirroring where
the JavaScript regex `\x7b[\s\S]*\x7d` starts matching. -/
def firstBrace : List Char → Option Nat
  | [] => none
  | c :: rest =>
    if c = braceOpen then some 0 else (firstBrace rest).map (· + 1)

/-- Index of the last close brace in the character list, mirroring where
the greedy regex `\x7b[\s\S]*\x7d` stops. -/
def lastBrace : List Char → Option Nat
  | [] => none
  | c :: rest =>
    match lastBrace rest with
    | some k => some (k + 1)
    | none => if c = braceClose then some 0 else none

/-- Model of `analysisText.match(/\x7b[\s\S]*\x7d/)`: the match exists
iff some open brace is followed by a close brace, and it spans from the
first open brace to the last close brace. -/
def extractJsonSpan (s : String) : Option String :=
  match firstBrace s.data with
  | none => none
  | some i =>
    match lastBrace s.data with
    | none => none
    | some j =>
      if i < j then some (String.mk ((s.data.drop i).take (j - i + 1))) else none

/-- `Math.max(1, Math.min(10, parsed.insights?.complexity || 5))`. -/
def clampedComplexity (parsed : JSValue) : Option Int :=
  let c := jsOr (jsGetOpt (jsGetField parsed "insights") "complexity") (.num 5)
  (toNumber c).map (fun n => max 1 (min 10 n))

/-- Field-by-field defaulting applied to a successfully parsed value
(`gemini-api.ts` lines 142-155). -/
def coerceAnalysisResult (parsed : JSValue) : AnalysisResultM :=
  { summary := jsOr (jsGetField parsed "summary") (.str "No summary available")
    features :=
      match jsGetField parsed "features" with
      | some (.arr xs) => xs
      | _ => []
    architecture :=
      { pattern := jsOr (jsGetOpt (jsGetField parsed "architecture") "pattern") (.str "Unknown")
        components :=
          match jsGetOpt (jsGetField parsed "architecture") "components" with
          | some (.arr xs) => xs
          | _ => [] }
    insights :=
      { codeQuality :=
          jsOr (jsGetOpt (jsGetField parsed "insights") "codeQuality")
            (.str "No assessment available")
        complexity := clampedComplexity parsed
        performance :=
          jsOr (jsGetOpt (jsGetField parsed "insights") "performance")
            (.str "No performance notes available") }
    recommendations :=
      match jsGetField parsed "recommendations" with
      | some (.arr xs) => xs
      | _ => [] }

/-- The fixed fallback analysis returned when no JSON span is found or
parsing fails (`gemini-api.ts` lines 158-175). -/
def fallbackAnalysisResult : AnalysisResultM :=
  { summary := .str "Analysis completed but could not parse detailed results. The repository appears to be a software project with various files and components."
    features := [.str "Code organization", .str "File structure", .str "Documentation"]
    architecture :=
      { pattern := .str "Standard project structure"
        components := [.str "Source files", .str "Configuration files", .str "Documentation"] }
    insights :=
      { codeQuality := .str "Repository structure suggests organized development practices."
        complexity := some 5
        performance := .str "Performance characteristics depend on the specific implementation details." }
    recommendations :=
      [.str "Consider adding more documentation",
       .str "Ensure proper testing coverage",
       .str "Optimize build configuration if applicable"] }

/-- `parseAnalysisResult`: extract the brace span, parse it (the JSON
parser is an oracle `jsonParse`), coerce field-by-field; every failure
falls back to the fixed result. -/
def parseAnalysisResult (jsonParse : String → Option JSValue) (analysisText : String) :
    AnalysisResultM :=
  match extractJsonSpan analysisText with
  | none => fallbackAnalysisResult
  | some jsonString =>
    match jsonParse jsonString with
    | none => fallbackAnalysisResult
    | some parsed => coerceAnalysisResult parsed

/-- Entry type tag as reported by the host listing API (`item.type`);
`other` covers symlinks/submodules, which match neither branch of the
walker's loop. -/
inductive EntryType where
  | file : EntryType
  | dir : EntryType
  | other : EntryType
deriving DecidableEq, Repr

/-- One entry of a directory listing returned by the host. -/
structure Entry where
  name : String
  path : String
  size : Nat
  etype : EntryType
deriving Repr

/-- Node of the produced file tree: `analyzeFileStructure` emits either a
file record or a directory record with fully resolved children. -/
inductive Node where
  | file : String → String → Nat → Node
  | dir : String → String → List Node → Node
deriving Repr

/-- `pre.data.isPrefixOf s.data`, modelling `String.startsWith`. -/
def startsWithStr (s pre : String) : Bool :=
  pre.data.isPrefixOf s.data

/-- `suf.data.isSuffixOf s.data`, modelling `String.endsWith`. -/
def endsWithStr (s suf : String) : Bool :=
  suf.data.isSuffixOf s.data

/-- Substring scan: does `p` occur contiguously inside `l`? -/
def hasSub : List Char → List Char → Bool
  | p, [] => p.isEmpty
  | p, c :: rest => p.isPrefixOf (c :: rest) || hasSub p rest

/-- `s.includes(pat)` — case-sensitive substring containment. -/
def containsSub (pat s : String) : Bool :=
  hasSub pat.data s.data

/-- Character-wise lowercasing of a string (used to model the
case-insensitive `i` regex flag: patterns in the source are lowercase). -/
def lowerStr (s : String) : String :=
  String.mk (s.data.map Char.toLower)

/-- Case-insensitive substring test against a lowercase pattern. -/
def testCI (s pat : String) : Bool :=
  containsSub pat (lowerStr s)

/-- The loop body of `analyzeFileStructure` over one listing: files are
emitted as file nodes; directories are recursed into (via `walkSub`) and
emitted only when the name does not start with `.` and is not
`node_modules`; anything else is skipped. -/
def walkItems (walkSub : String → List Node) : List Entry → List Node
  | [] => []
  | e :: rest =>
    (match e.etype with
     | .file => [Node.file e.name e.path e.size]
     | .dir =>
       if !startsWithStr e.name "." && e.name != "node_modules" then
         [Node.dir e.name e.path (walkSub e.path)]
       else []
     | .other => []) ++ walkItems walkSub rest

/-- Fuel-indexed recursion of `analyzeFileStructure`: fuel `4 - depth`
encodes the guard `if (depth > 3) return []`; fuel `0` is exactly the
guard firing.  A `none` listing models a failed fetch or a non-array
body, both of which the source collapses to an empty subtree. -/
def analyzeFileStructureAux (listing : String → Option (List Entry)) :
    Nat → String → List Node
  | 0, _ => []
  | fuel + 1, path =>
    match listing path with
    | none => []
    | some entries => walkItems (fun p => analyzeFileStructureAux listing fuel p) entries

/-- `analyzeFileStructure(owner, repo, path, depth)` with the owner/repo
pair fixed inside the listing oracle. -/
def analyzeFileStructure (listing : String → Option (List Entry))
    (path : String) (depth : Nat) : List Node :=
  if depth > 3 then [] else analyzeFileStructureAux listing (4 - depth) path

/-- Component file extensions. -/
def componentExtensions : List String := [".tsx", ".jsx", ".vue", ".svelte"]

/-- Regex `/\/components?\//i` as a pair of substring tests. -/
def reComponentsDir (p : String) : Bool :=
  testCI p "/component/" || testCI p "/components/"

/-- Regex `/\/ui\//i`. -/
def reUiDir (p : String) : Bool := testCI p "/ui/"

/-- Regex `/\/widgets?\//i`. -/
def reWidgetsDir (p : String) : Bool :=
  testCI p "/widget/" || testCI p "/widgets/"

/-- Regex `/\/shared\//i`. -/
def reSharedDir (p : String) : Bool := testCI p "/shared/"

/-- `isComponent(fileName, filePath)`: component extension AND a
component-directory pattern in the path. -/
def isComponent (fileName filePath : String) : Bool :=
  componentExtensions.any (fun ext => endsWithStr fileName ext) &&
  (reComponentsDir filePath || reUiDir filePath || reWidgetsDir filePath ||
   reSharedDir filePath)

/-- Regex `/\/pages?\//i`. -/
def rePagesDir (p : String) : Bool :=
  testCI p "/page/" || testCI p "/pages/"

/-- Regex `/\/routes?\//i`. -/
def reRoutesDir (p : String) : Bool :=
  testCI p "/route/" || testCI p "/routes/"

/-- Regex `/\/views?\//i`. -/
def reViewsDir (p : String) : Bool :=
  testCI p "/view/" || testCI p "/views/"

/-- Regex `/\/screens?\//i`. -/
def reScreensDir (p : String) : Bool :=
  testCI p "/screen/" || testCI p "/screens/"

/-- Regex `/^pages?\//i` — anchored at the start of the path. -/
def reTopPages (p : String) : Bool :=
  startsWithStr (lowerStr p) "page/" || startsWithStr (lowerStr p) "pages/"

/-- Regex `/app\/.*\.(tsx|jsx|js|ts)$/i`.  Because the extension
alternatives sit at the end of the string and `app/` contains neither a
dot nor fits inside a trailing extension, the regex is equivalent to:
the path contains `app/` and ends with one of the four extensions
(case-insensitively). -/
def reAppRouter (p : String) : Bool :=
  testCI p "app/" &&
  ([".tsx", ".jsx", ".js", ".ts"].any (fun ext => endsWithStr (lowerStr p) ext))

/-- `isPage(fileName, filePath)`. -/
def isPage (fileName filePath : String) : Bool :=
  (rePagesDir filePath || reRoutesDir filePath || reViewsDir filePath ||
   reScreensDir filePath || reTopPages filePath || reAppRouter filePath) ||
  containsSub "page" (lowerStr fileName) || containsSub "route" (lowerStr fileName)

/-- The three counters accumulated by `analyzeProjectStats`. -/
structure ProjectStats where
  totalFiles : Nat
  components : Nat
  pages : Nat
deriving DecidableEq, Repr

mutual
/-- Contribution of a single node to the counters of `countFiles`:
a file bumps `totalFiles` and conditionally the two classifier counters;
a directory contributes its children's counts. -/
def countFilesNode : Node → ProjectStats
  | .file name path _ =>
    { totalFiles := 1
      components := if isComponent name path then 1 else 0
      pages := if isPage name path then 1 else 0 }
  | .dir _ _ cs => countFiles cs

/-- The `countFiles` loop over a node list, as a fold of contributions. -/
def countFiles : List Node → ProjectStats
  | [] => ⟨0, 0, 0⟩
  | n :: rest =>
    let a := countFilesNode n
    let b := countFiles rest
    ⟨a.totalFiles + b.totalFiles, a.components + b.components, a.pages + b.pages⟩
end

mutual
/-- Number of file nodes reachable anywhere below one node (the
specification-side count that `totalFiles` is claimed to equal). -/
def fileNodeCountNode : Node → Nat
  | .file _ _ _ => 1
  | .dir _ _ cs => fileNodeCount cs

/-- Number of file nodes reachable anywhere in a forest. -/
def fileNodeCount : List Node → Nat
  | [] => 0
  | n :: rest => fileNodeCountNode n + fileNodeCount rest
end

/-- `analyzeProjectStats(fileStructure)`. -/
def analyzeProjectStats (fileStructure : List Node) : ProjectStats :=
  countFiles fileStructure

/-- The fixed allow-list of sample file names (`targetFiles`). -/
def targetFiles : List String :=
  ["package.json", "README.md", "tsconfig.json", "next.config.js", "vite.config.ts"]

/-- `findAndFetchFiles`: pre-order traversal; a file node whose name
contains one of the targets is fetched (`fetchContent` already includes
the base64 decode; `none` models any failure, which is skipped). -/
def findAndFetchFiles (fetchContent : String → Option String) :
    List Node → List (String × String)
  | [] => []
  | .file name path _ :: rest =>
    if targetFiles.any (fun target => containsSub target name) then
      (match fetchContent path with
       | some content => [(path, content)]
       | none => []) ++ findAndFetchFiles fetchContent rest
    else
      findAndFetchFiles fetchContent rest
  | .dir _ _ cs :: rest =>
    findAndFetchFiles fetchContent cs ++ findAndFetchFiles fetchContent rest

/-- `getSampleFiles`: collect then truncate to the first five. -/
def getSampleFiles (fetchContent : String → Option String) (fileStructure : List Node) :
    List (String × String) :=
  (findAndFetchFiles fetchContent fileStructure).take 5

/-- Specification-side candidate list: paths of the file nodes, in
pre-order, whose name contains one of the targets. -/
def sampleCandidates : List Node → List String
  | [] => []
  | .file name path _ :: rest =>
    (if targetFiles.any (fun target => containsSub target name) then [path] else []) ++
      sampleCandidates rest
  | .dir _ _ cs :: rest => sampleCandidates cs ++ sampleCandidates rest

/-- One technology-marker rule: add the tag when the lowercased file
name contains the marker.  `Set.add` keeps insertion order and value
uniqueness, modelled by appending when absent. -/
def addTech (ts : List String) (tag : String) : List String :=
  if ts.contains tag then ts else ts ++ [tag]

/-- The framework-detection table applied to one file
(`detectTechnologies` loop body; names and paths are lowercased first). -/
def techOfFile (name path : String) (ts : List String) : List String :=
  let fileName := lowerStr name
  let filePath := lowerStr path
  let ts := if containsSub "package.json" fileName then addTech ts "Node.js" else ts
  let ts := if containsSub "next.config" fileName then addTech ts "Next.js" else ts
  let ts := if containsSub "nuxt.config" fileName then addTech ts "Nuxt.js" else ts
  let ts := if containsSub "vue.config" fileName then addTech ts "Vue.js" else ts
  let ts := if containsSub "angular.json" fileName then addTech ts "Angular" else ts
  let ts := if containsSub "svelte.config" fileName then addTech ts "Svelte" else ts
  let ts := if containsSub "vite.config" fileName then addTech ts "Vite" else ts
  let ts := if containsSub "webpack.config" fileName then addTech ts "Webpack" else ts
  let ts := if containsSub "tailwind.config" fileName then addTech ts "Tailwind CSS" else ts
  let ts := if containsSub "postcss.config" fileName then addTech ts "PostCSS" else ts
  let ts := if containsSub "tsconfig.json" fileName then addTech ts "TypeScript" else ts
  let ts := if containsSub "jest.config" fileName then addTech ts "Jest" else ts
  let ts := if containsSub "cypress.config" fileName then addTech ts "Cypress" else ts
  let ts := if containsSub "playwright.config" fileName then addTech ts "Playwright" else ts
  let ts := if containsSub "docker" fileName then addTech ts "Docker" else ts
  let ts := if containsSub "docker-compose" fileName then addTech ts "Docker Compose" else ts
  let ts := if containsSub ".env" fileName then addTech ts "Environment Variables" else ts
  let ts := if containsSub "prisma" fileName then addTech ts "Prisma" else ts
  let ts := if containsSub "supabase" fileName then addTech ts "Supabase" else ts
  let ts := if containsSub "firebase" fileName then addTech ts "Firebase" else ts
  let ts := if containsSub "graphql" filePath then addTech ts "GraphQL" else ts
  let ts := if containsSub "eslint" fileName then addTech ts "ESLint" else ts
  let ts := if containsSub "prettier" fileName then addTech ts "Prettier" else ts
  let ts := if containsSub "husky" fileName then addTech ts "Husky" else ts
  let ts := if containsSub "lint-staged" fileName then addTech ts "Lint Staged" else ts
  ts

/-- `analyzeTech` traversal threading the accumulated tag list. -/
def analyzeTech (ts : List String) : List Node → List String
  | [] => ts
  | .file name path _ :: rest => analyzeTech (techOfFile name path ts) rest
  | .dir _ _ cs :: rest => analyzeTech (analyzeTech ts cs) rest

/-- `detectTechnologies(fileStructure, languages)`: seed the set with the
declared languages, then traverse. -/
def detectTechnologies (fileStructure : List Node) (languages : List String) :
    List String :=
  analyzeTech (languages.foldl addTech []) fileStructure

/-- `Object.keys` on a parsed JSON value: field names of an object,
empty otherwise. -/
def objectKeys : JSValue → List String
  | .obj fields => fields.map (fun f => f.1)
  | _ => []

/-- The marker substring searched by the URL regex. -/
def ghMarker : List Char := "github.com/".data

/-- One attempt of `repoUrl.match(/github\.com\/([^\/]+)\/([^\/]+)/)` at
a fixed start position: the literal marker, then a nonempty run of
non-slash characters, a slash, and a second nonempty non-slash run. -/
def tryMatchAt (cs : List Char) : Option (String × String) :=
  if ghMarker.isPrefixOf cs then
    let rest := cs.drop ghMarker.length
    let owner := rest.takeWhile (fun c => c ≠ '/')
    if owner.isEmpty then none
    else
      match rest.drop owner.length with
      | '/' :: rest2 =>
        let repo := rest2.takeWhile (fun c => c ≠ '/')
        if repo.isEmpty then none else some (String.mk owner, String.mk repo)
      | _ => none
  else none

/-- Leftmost-match scan of the URL regex over every start position. -/
def matchFrom : List Char → Option (String × String)
  | [] => none
  | c :: rest =>
    match tryMatchAt (c :: rest) with
    | some r => some r
    | none => matchFrom rest

/-- `(owner, repo)` extraction from the repository URL (lines 181-186). -/
def matchOwnerRepo (repoUrl : String) : Option (String × String) :=
  matchFrom repoUrl.data

/-- `repo.replace(/\.git$/, '')`. -/
def stripGitSuffix (repo : String) : String :=
  if endsWithStr repo ".git" then String.mk (repo.data.take (repo.data.length - 4))
  else repo

/-- The remote-host oracle for one `(owner, repo)` pair.  `meta` is the
metadata fetch (line 191), `contents` the root contents fetch (line 198),
`languages` the language-breakdown fetch (line 205); for each, `none`
models a non-success response.  `listing` serves the tree walk and
`fileContent` the sample fetches. -/
structure Host where
  meta : Option JSValue
  contents : Option JSValue
  languages : Option JSValue
  listing : String → Option (List Entry)
  fileContent : String → Option String

/-- The snapshot record assembled by `analyzeRepository`. -/
structure RepoDataM where
  repository : JSValue
  stats : ProjectStats
  languages : List String
  technologies : List String
  fileStructure : List Node
  sampleFiles : List (String × String)

/-- `analyzeRepository(repoUrl)`.  The second component records the
top-level fetches the function itself performs (metadata, root contents,
languages), in order; the walker's and sampler's fetches go through the
oracles in `Host`.  Error strings follow the source: the invalid-URL
throw happens outside the `try`, every other failure is wrapped by the
outer `catch` into `Failed to analyze repository: ...`. -/
def analyzeRepository (host : Host) (repoUrl : String) :
    Except String RepoDataM × List String :=
  match matchOwnerRepo repoUrl with
  | none => (.error "Invalid GitHub repository URL", [])
  | some (owner, repo) =>
    let cleanRepo := stripGitSuffix repo
    let metaUrl := "https://api.github.com/repos/" ++ owner ++ "/" ++ cleanRepo
    match host.meta with
    | none =>
      (.error "Failed to analyze repository: Repository not found or not accessible",
       [metaUrl])
    | some repository =>
      match host.contents with
      | none =>
        (.error "Failed to analyze repository: Failed to fetch repository contents",
         [metaUrl, metaUrl ++ "/contents"])
      | some _contents =>
        let languages :=
          match host.languages with
          | some l => l
          | none => .obj []
        let fileStructure := analyzeFileStructure host.listing "" 0
        let stats := analyzeProjectStats fileStructure
        let technologies := detectTechnologies fileStructure (objectKeys languages)
        let sampleFiles := getSampleFiles host.fileContent fileStructure
        (.ok
          { repository
            stats
            languages := objectKeys languages
            technologies
            fileStructure
            sampleFiles },
         [metaUrl, metaUrl ++ "/contents", metaUrl ++ "/languages"])

/-- Whether an `Except` result is a success. -/
def exceptOk : Except String RepoDataM → Bool
  | .ok _ => true
  | .error _ => false

/-- Directory names the walker refuses to descend into. -/
def excludedName (name : String) : Bool :=
  startsWithStr name "." || name == "node_modules"

/-- No directory node with an excluded name occurs anywhere in a forest. -/
def noExcludedDirs : List Node → Bool
  | [] => true
  | .file _ _ _ :: rest => noExcludedDirs rest
  | .dir name _ cs :: rest =>
    !excludedName name && noExcludedDirs cs && noExcludedDirs rest

mutual
/-- Nesting height of a node (a file is height 1; a directory is one
more than its tallest child). -/
def nodeHeight : Node → Nat
  | .file _ _ _ => 1
  | .dir _ _ cs => 1 + forestHeight cs

/-- Nesting height of a forest (empty forest has height 0). -/
def forestHeight : List Node → Nat
  | [] => 0
  | n :: rest => max (nodeHeight n) (forestHeight rest)
end

/-- Every directory node sitting at nesting level 4 (top-level nodes are
level 1) has an empty children sequence. -/
def childrenEmptyAtLevel (lvl : Nat) : List Node → Bool
  | [] => true
  | .file _ _ _ :: rest => childrenEmptyAtLevel lvl rest
  | .dir _ _ cs :: rest =>
    (if lvl = 4 then cs.isEmpty else true) &&
      childrenEmptyAtLevel (lvl + 1) cs && childrenEmptyAtLevel lvl rest

/-- Concrete parsed object `{"insights": {"complexity": 0}}`. -/
def c1ParsedZero : JSValue :=
  .obj [("insights", .obj [("complexity", .num 0)])]

/-- Concrete response text whose JSON span parses to `c1ParsedZero`. -/
def c1TextZero : String :=
  "\x7b\"insights\": \x7b\"complexity\": 0\x7d\x7d"

/-- JSON-parse oracle consistent with `JSON.parse` on `c1TextZero`'s span. -/
def c1ParseZero : String → Option JSValue :=
  fun _ => some c1ParsedZero

/-- Concrete parsed object `{"insights": {"complexity": 15}}`. -/
def c1ParsedFifteen : JSValue :=
  .obj [("insights", .obj [("complexity", .num 15)])]

/-- Concrete response text whose JSON span parses to `c1ParsedFifteen`. -/
def c1TextFifteen : String :=
  "\x7b\"insights\": \x7b\"complexity\": 15\x7d\x7d"

/-- JSON-parse oracle consistent with `JSON.parse` on `c1TextFifteen`. -/
def c1ParseFifteen : String → Option JSValue :=
  fun _ => some c1ParsedFifteen

/-- A listing oracle whose root listing contains a `node_modules`
directory and a hidden `.github` directory (and nothing else). -/
def c2Listing : String → Option (List Entry) :=
  fun p =>
    if p = "" then
      some [⟨"node_modules", "node_modules", 0, .dir⟩, ⟨".github", ".github", 0, .dir⟩]
    else some []

/-- A host whose metadata fetch succeeds but whose root contents fetch
(line 198) fails. -/
def c3Host : Host :=
  { meta := some (.obj [("name", .str "b")])
    contents := none
    languages := some (.obj [])
    listing := fun _ => some []
    fileContent := fun _ => none }

/-- A host where the metadata and root contents fetches succeed and
every tree-walk listing and every sample fetch fails. -/
def c3DegradedHost : Host :=
  { meta := some (.obj [("name", .str "b")])
    contents := some (.arr [])
    languages := none
    listing := fun _ => none
    fileContent := fun _ => none }

/-- A listing oracle that returns one directory chain forever: walking
it without the depth bound would never terminate, so it exercises the
depth cut-off. -/
def c4Listing : String → Option (List Entry) :=
  fun p => some [⟨"d", p ++ "/d", 0, .dir⟩, ⟨"f.ts", p ++ "/f.ts", 1, .file⟩]

/-- A tree holding seven sample candidates in pre-order positions 1..7,
interleaved with non-candidates and nested directories. -/
def c5Tree : List Node :=
  [Node.file "package.json" "package.json" 10,
   Node.file "main.ts" "main.ts" 5,
   Node.dir "docs" "docs"
     [Node.file "README.md" "docs/README.md" 20,
      Node.file "tsconfig.json" "docs/tsconfig.json" 30],
   Node.file "next.config.js" "next.config.js" 40,
   Node.dir "sub" "sub"
     [Node.file "vite.config.ts" "sub/vite.config.ts" 50,
      Node.file "package.json" "sub/package.json" 60,
      Node.file "README.md" "sub/README.md" 70]]

/-- A content oracle that succeeds on every path. -/
def c5Fetch : String → Option String :=
  fun p => some ("contents of " ++ p)

/-- A host that fails every fetch (used to show the invalid-URL rejection
consults nothing). -/
def c8Host : Host :=
  { meta := none
    contents := none
    languages := none
    listing := fun _ => none
    fileContent := fun _ => none }

/-- A single `.tsx` file that is simultaneously a component (it lives
under `/components/`) and a page (its name contains `page`). -/
def c10Tree : List Node :=
  [Node.dir "src" "src"
    [Node.dir "components" "src/components"
      [Node.file "HomePage.tsx" "src/components/HomePage.tsx" 120]]]

theorem toLower_eq_slash {c : Char} (h : Char.toLower c = '/') : c = '/' := by
  unfold Char.toLower at h
  simp only [] at h
  by_cases hcond : c.toNat ≥ 65 ∧ c.toNat ≤ 90
  · rw [if_pos hcond] at h
    obtain ⟨h1, h2⟩ := hcond
    exfalso
    set n := Char.toNat c with hn
    clear_value n
    interval_cases n <;> exact absurd h (by decide)
  · rwa [if_neg hcond] at h

theorem count_slash_map_toLower (l : List Char) :
    (l.map Char.toLower).count '/' = l.count '/' := by
  induction l with
  | nil => rfl
  | cons c rest ih =>
    simp only [List.map_cons, List.count_cons, ih]
    congr 1
    by_cases hc : c = '/'
    · subst hc
      simp [show Char.toLower '/' = '/' from rfl]
    · have : Char.toLower c ≠ '/' := fun h => hc (toLower_eq_slash h)
      simp [hc, this]

theorem hasSub_count_le {p l : List Char} (c : Char) (h : hasSub p l = true) :
    p.count c ≤ l.count c := by
  induction l with
  | nil =>
    simp only [hasSub, List.isEmpty_iff] at h
    subst h
    exact Nat.le_refl _
  | cons d rest ih =>
    simp only [hasSub, Bool.or_eq_true] at h
    cases h with
    | inl hp =>
      exact (List.isPrefixOf_iff_prefix.mp hp).count_le c
    | inr hr =>
      exact Nat.le_trans (ih hr) ((List.sublist_cons_self d rest).count_le c)

theorem isComponent_false_of_le_one_slash (name path : String)
    (h : (path.data.map Char.toLower).count '/' ≤ 1) :
    isComponent name path = false := by
  have key : ∀ pat : String, pat.data.count '/' = 2 → testCI path pat = false := by
    intro pat hp
    cases htest : testCI path pat with
    | false => rfl
    | true =>
      exfalso
      have hc := hasSub_count_le (p := pat.data) (l := (lowerStr path).data) '/' htest
      have hdata : (lowerStr path).data = path.data.map Char.toLower := rfl
      rw [hdata, hp] at hc
      omega
  simp only [isComponent, reComponentsDir, reUiDir, reWidgetsDir, reSharedDir,
    key "/component/" (by decide), key "/components/" (by decide),
    key "/ui/" (by decide), key "/widget/" (by decide),
    key "/widgets/" (by decide), key "/shared/" (by decide),
    Bool.or_false, Bool.and_false]

/-- C9: every component path pattern requires a `/` immediately before
the directory keyword, and repository paths are root-relative without a
leading slash; hence a file directly under a top-level `components/`,
`ui/`, `widgets/` or `shared/` directory is not classified as a
component, whereas a nested `src/components/Button.tsx` is. -/
theorem c9_top_level_dirs_not_components (name : String)
    (h : '/' ∉ name.data) :
    isComponent name ("components/" ++ name) = false ∧
    isComponent name ("ui/" ++ name) = false ∧
    isComponent name ("widgets/" ++ name) = false ∧
    isComponent name ("shared/" ++ name) = false ∧
    isComponent "Button.tsx" "src/components/Button.tsx" = true := by
  have hname : (name.data.map Char.toLower).count '/' = 0 := by
    rw [count_slash_map_toLower]
    exact List.count_eq_zero.mpr h
  have key : ∀ dir : String, (dir.data.map Char.toLower).count '/' = 1 →
      isComponent name (dir ++ name) = false := by
    intro dir hdir
    apply isComponent_false_of_le_one_slash
    have happ : (dir ++ name).data = dir.data ++ name.data := by
      obtain ⟨l⟩ := name
      obtain ⟨m⟩ := dir
      rfl
    rw [happ, List.map_append, List.count_append, hdir, hname]
  exact ⟨key "components/" (by decide), key "ui/" (by decide),
    key "widgets/" (by decide), key "shared/" (by decide), by decide⟩

theorem c9_top_level_dirs_not_components_witness :
    isComponent "Button.tsx" ("components/" ++ "Button.tsx") = false ∧
    isComponent "Button.tsx" ("ui/" ++ "Button.tsx") = false ∧
    isComponent "Button.tsx" ("widgets/" ++ "Button.tsx") = false ∧
    isComponent "Button.tsx" ("shared/" ++ "Button.tsx") = false ∧
    isComponent "Button.tsx" "src/components/Button.tsx" = true :=
  c9_top_level_dirs_not_components "Button.tsx" (by decide)

/-- C10: component and page classification are not mutually exclusive:
`src/components/HomePage.tsx` satisfies both classifiers, the aggregator
counts it in both counters, and `components + pages` exceeds
`totalFiles` on this tree. -/
theorem c10_overlapping_classification :
    isComponent "HomePage.tsx" "src/components/HomePage.tsx" = true ∧
    isPage "HomePage.tsx" "src/components/HomePage.tsx" = true ∧
    analyzeProjectStats c10Tree = ⟨1, 1, 1⟩ ∧
    (analyzeProjectStats c10Tree).components + (analyzeProjectStats c10Tree).pages >
      (analyzeProjectStats c10Tree).totalFiles := by
  refine ⟨by decide, by decide, by decide, by decide⟩

theorem noExcludedDirs_append (a b : List Node) :
    noExcludedDirs (a ++ b) = (noExcludedDirs a && noExcludedDirs b) := by
  induction a with
  | nil => simp [noExcludedDirs]
  | cons n rest ih =>
    cases n with
    | file _ _ _ => simpa [noExcludedDirs] using ih
    | dir nm p cs => simp [noExcludedDirs, ih, Bool.and_assoc]

theorem noExcludedDirs_walkItems (walkSub : String → List Node)
    (h : ∀ p, noExcludedDirs (walkSub p) = true) (entries : List Entry) :
    noExcludedDirs (walkItems walkSub entries) = true := by
  induction entries with
  | nil => simp [walkItems, noExcludedDirs]
  | cons e rest ih =>
    cases he : e.etype with
    | file =>
      simpa [walkItems, he, noExcludedDirs] using ih
    | dir =>
      by_cases hex : (!startsWithStr e.name "." && e.name != "node_modules") = true
      · have hexc : excludedName e.name = false := by
          simp only [Bool.and_eq_true, Bool.not_eq_true', bne_iff_ne] at hex
          simp [excludedName, hex.1, hex.2]
        simp [walkItems, he, hex, noExcludedDirs, hexc, h e.path, ih]
      · simp only [Bool.not_eq_true] at hex
        simpa [walkItems, he, hex] using ih
    | other =>
      simpa [walkItems, he] using ih

theorem noExcludedDirs_walk (listing : String → Option (List Entry)) :
    ∀ (fuel : Nat) (path : String),
      noExcludedDirs (analyzeFileStructureAux listing fuel path) = true
  | 0, _ => by simp [analyzeFileStructureAux, noExcludedDirs]
  | fuel + 1, path => by
    unfold analyzeFileStructureAux
    cases listing path with
    | none => simp [noExcludedDirs]
    | some entries =>
      exact noExcludedDirs_walkItems _ (fun p => noExcludedDirs_walk listing fuel p) entries

/-- C2 as amended: excluded directory entries (name starting with `.`,
or exactly `node_modules`) are dropped from the walker's output
entirely: they are neither descended into nor emitted, so no directory
node with such a name occurs anywhere in the produced tree. -/
theorem c2_excluded_dirs_dropped (listing : String → Option (List Entry))
    (path : String) (depth : Nat) :
    noExcludedDirs (analyzeFileStructure listing path depth) = true := by
  unfold analyzeFileStructure
  by_cases h : depth > 3
  · simp [h, noExcludedDirs]
  · simp only [h, if_false]
    exact noExcludedDirs_walk listing (4 - depth) path

/-- C2 counterexample: a host listing that returns a `node_modules` and
a `.github` directory yields an empty walker output — the excluded
entries do not appear as zero-children directory nodes, contrary to the
claim. -/
theorem c2_counterexample :
    analyzeFileStructure c2Listing "" 0 = [] ∧
    analyzeFileStructure c2Listing "" 0 ≠
      [Node.dir "node_modules" "node_modules" [], Node.dir ".github" ".github" []] := by
  have h0 : analyzeFileStructure c2Listing "" 0 = [] := rfl
  refine ⟨h0, ?_⟩
  rw [h0]
  simp

theorem forestHeight_append (a b : List Node) :
    forestHeight (a ++ b) = max (forestHeight a) (forestHeight b) := by
  induction a with
  | nil => simp [forestHeight]
  | cons n rest ih => simp [forestHeight, ih, Nat.max_assoc]

theorem forestHeight_walkItems (walkSub : String → List Node) (bound : Nat)
    (h : ∀ p, forestHeight (walkSub p) ≤ bound) (entries : List Entry) :
    forestHeight (walkItems walkSub entries) ≤ bound + 1 := by
  induction entries with
  | nil => simp [walkItems, forestHeight]
  | cons e rest ih =>
    rw [walkItems, forestHeight_append]
    refine Nat.max_le.mpr ⟨?_, ih⟩
    cases e.etype with
    | file => simp [forestHeight, nodeHeight]
    | dir =>
      by_cases hex : (!startsWithStr e.name "." && e.name != "node_modules") = true
      · simp only [hex, if_true]
        have := h e.path
        simp [forestHeight, nodeHeight]
        omega
      · simp only [Bool.not_eq_true] at hex
        simp [hex, forestHeight]
    | other => simp [forestHeight]

theorem forestHeight_walk (listing : String → Option (List Entry)) :
    ∀ (fuel : Nat) (path : String),
      forestHeight (analyzeFileStructureAux listing fuel path) ≤ fuel
  | 0, _ => by simp [analyzeFileStructureAux, forestHeight]
  | fuel + 1, path => by
    unfold analyzeFileStructureAux
    cases listing path with
    | none => simp [forestHeight]
    | some entries =>
      exact forestHeight_walkItems _ fuel (fun p => forestHeight_walk listing fuel p) entries

theorem forestHeight_eq_zero {ns : List Node} (h : forestHeight ns = 0) : ns = [] := by
  cases ns with
  | nil => rfl
  | cons n rest =>
    exfalso
    cases n with
    | file _ _ _ => simp [forestHeight, nodeHeight] at h
    | dir _ _ cs => simp [forestHeight, nodeHeight] at h

theorem childrenEmpty_of_height :
    ∀ (lvl : Nat) (ns : List Node), forestHeight ns + lvl ≤ 5 →
      childrenEmptyAtLevel lvl ns = true
  | _, [], _ => by simp [childrenEmptyAtLevel]
  | lvl, .file n p s :: rest, h => by
    rw [show (Node.file n p s :: rest : List Node) = [Node.file n p s] ++ rest from rfl,
      forestHeight_append] at h
    have hr := childrenEmpty_of_height lvl rest (by omega)
    simp [childrenEmptyAtLevel, hr]
  | lvl, .dir n p cs :: rest, h => by
    rw [show (Node.dir n p cs :: rest : List Node) = [Node.dir n p cs] ++ rest from rfl,
      forestHeight_append] at h
    have hcs : forestHeight [Node.dir n p cs] = 1 + forestHeight cs := by
      simp [forestHeight, nodeHeight]
    rw [hcs] at h
    have h1 := childrenEmpty_of_height (lvl + 1) cs (by omega)
    have h2 := childrenEmpty_of_height lvl rest (by omega)
    by_cases h4 : lvl = 4
    · subst h4
      have hzero : forestHeight cs = 0 := by omega
      have : cs = [] := forestHeight_eq_zero hzero
      subst this
      simp [childrenEmptyAtLevel, h2]
    · simp [childrenEmptyAtLevel, h4, h1, h2]

/-- C4: the walk stops once `depth` exceeds 3 (returning an empty
sequence regardless of the host), and consequently in a tree walked from
the root at depth 0 no directory node at nesting level 4 (top-level
nodes being level 1) has a non-empty children sequence. -/
theorem c4_depth_bound (listing : String → Option (List Entry))
    (path : String) (depth : Nat) (h : depth > 3) :
    analyzeFileStructure listing path depth = [] ∧
    childrenEmptyAtLevel 1 (analyzeFileStructure listing path 0) = true := by
  constructor
  · simp [analyzeFileStructure, h]
  · have hh := forestHeight_walk listing 4 path
    have h03 : ¬ (0 > 3) := by omega
    rw [analyzeFileStructure, if_neg h03]
    simp only [Nat.sub_zero]
    exact childrenEmpty_of_height 1 _ (by omega)

theorem c4_depth_bound_witness :
    analyzeFileStructure c4Listing "" 4 = [] ∧
    childrenEmptyAtLevel 1 (analyzeFileStructure c4Listing "" 0) = true :=
  c4_depth_bound c4Listing "" 4 (by decide)

/-- C3 as amended: once the metadata fetch AND the root repository
contents fetch (line 198) have both succeeded, no tree-walk listing
failure and no sample-content fetch failure can make `analyzeRepository`
fail: for every listing oracle and every content oracle a complete
(possibly degraded) snapshot is returned.  The root contents fetch,
however, is itself a directory-listing fetch whose failure aborts the
operation even after a successful metadata fetch (see the
counterexample). -/
theorem c3_degraded_snapshot_succeeds (host : Host) (url owner repo : String)
    (m c : JSValue) (hmatch : matchOwnerRepo url = some (owner, repo))
    (hm : host.meta = some m) (hc : host.contents = some c) :
    exceptOk (analyzeRepository host url).1 = true := by
  unfold analyzeRepository
  rw [hmatch, hm, hc]
  rfl

theorem c3_degraded_snapshot_succeeds_witness :
    exceptOk (analyzeRepository c3DegradedHost "https://github.com/acme/widgets").1 = true :=
  c3_degraded_snapshot_succeeds c3DegradedHost "https://github.com/acme/widgets"
    "acme" "widgets" (.obj [("name", .str "b")]) (.arr []) (by decide) rfl rfl

/-- C3 counterexample: with the metadata fetch succeeding and the root
contents fetch (a directory-listing fetch) failing, `analyzeRepository`
aborts with an error instead of recovering, contradicting the claim that
after a successful metadata fetch no directory-listing failure can make
it fail. -/
theorem c3_counterexample :
    c3Host.meta.isSome = true ∧
    (analyzeRepository c3Host "https://github.com/acme/widgets").1 =
      .error "Failed to analyze repository: Failed to fetch repository contents" := by
  exact ⟨rfl, rfl⟩

/-- C8: a URL on which the owner/repo regex finds no match is rejected
with the invalid-URL error and an empty request log, and the result does
not depend on the host at all (no network call); on the example URL the
regex extracts owner `acme` and repo `widgets.git`, whose trailing
`.git` is then stripped. -/
theorem c8_invalid_url_rejected (host : Host) (url : String)
    (h : matchOwnerRepo url = none) :
    analyzeRepository host url = (.error "Invalid GitHub repository URL", []) ∧
    (∀ host2 : Host, analyzeRepository host2 url = analyzeRepository host url) ∧
    matchOwnerRepo "https://github.com/acme/widgets.git" = some ("acme", "widgets.git") ∧
    stripGitSuffix "widgets.git" = "widgets" := by
  refine ⟨?_, ?_, by decide, by decide⟩
  · unfold analyzeRepository
    rw [h]
  · intro host2
    unfold analyzeRepository
    rw [h]

theorem c8_invalid_url_rejected_witness :
    analyzeRepository c8Host "https://example.com/acme/widgets" =
      (.error "Invalid GitHub repository URL", []) ∧
    matchOwnerRepo "https://github.com/acme/widgets.git" = some ("acme", "widgets.git") ∧
    stripGitSuffix "widgets.git" = "widgets" := by
  have h := c8_invalid_url_rejected c8Host "https://example.com/acme/widgets" (by decide)
  exact ⟨h.1, h.2.2.1, h.2.2.2⟩

mutual
theorem countFilesNode_spec : ∀ n : Node,
    (countFilesNode n).totalFiles = fileNodeCountNode n ∧
    (countFilesNode n).components ≤ (countFilesNode n).totalFiles ∧
    (countFilesNode n).pages ≤ (countFilesNode n).totalFiles
  | .file name path s => by
    refine ⟨rfl, ?_, ?_⟩ <;>
      · simp only [countFilesNode]
        split <;> simp
  | .dir name path cs => by
    simpa only [countFilesNode, fileNodeCountNode] using countFiles_spec cs

theorem countFiles_spec : ∀ ns : List Node,
    (countFiles ns).totalFiles = fileNodeCount ns ∧
    (countFiles ns).components ≤ (countFiles ns).totalFiles ∧
    (countFiles ns).pages ≤ (countFiles ns).totalFiles
  | [] => by simp [countFiles, fileNodeCount]
  | n :: rest => by
    have h1 := countFilesNode_spec n
    have h2 := countFiles_spec rest
    simp only [countFiles, fileNodeCount]
    refine ⟨by rw [h1.1, h2.1], ?_, ?_⟩ <;> omega
end

/-- C6: for every tree the aggregator's `totalFiles` equals the number
of file nodes reachable at any depth, and both `components` and `pages`
are bounded by `totalFiles`. -/
theorem c6_aggregator_counts (fileStructure : List Node) :
    (analyzeProjectStats fileStructure).totalFiles = fileNodeCount fileStructure ∧
    (analyzeProjectStats fileStructure).components ≤
      (analyzeProjectStats fileStructure).totalFiles ∧
    (analyzeProjectStats fileStructure).pages ≤
      (analyzeProjectStats fileStructure).totalFiles := by
  simpa only [analyzeProjectStats] using countFiles_spec fileStructure

theorem findAndFetchFiles_eq (fetchContent : String → Option String)
    (hs : ∀ p, (fetchContent p).isSome = true) :
    ∀ nodes : List Node, findAndFetchFiles fetchContent nodes =
      (sampleCandidates nodes).map (fun p => (p, (fetchContent p).getD ""))
  | [] => by simp [findAndFetchFiles, sampleCandidates]
  | .file name path sz :: rest => by
    have hrec := findAndFetchFiles_eq fetchContent hs rest
    by_cases hm : (targetFiles.any fun target => containsSub target name) = true
    · obtain ⟨content, hcontent⟩ := Option.isSome_iff_exists.mp (hs path)
      simp [findAndFetchFiles, sampleCandidates, hm, hcontent, hrec]
    · simp only [Bool.not_eq_true] at hm
      simp [findAndFetchFiles, sampleCandidates, hm, hrec]
  | .dir n p cs :: rest => by
    have h1 := findAndFetchFiles_eq fetchContent hs cs
    have h2 := findAndFetchFiles_eq fetchContent hs rest
    simp [findAndFetchFiles, sampleCandidates, h1, h2]

/-- C5: `getSampleFiles` never returns more than five entries; its
candidates are exactly the file nodes whose name contains one of the
five allow-listed names as a case-sensitive substring
(`sampleCandidates` lists them in pre-order); and whenever every content
fetch succeeds the result is exactly the first five candidates in
pre-order — in particular with seven or more candidates the first five
are returned, in order. -/
theorem c5_sample_cap_and_order (fetchContent : String → Option String)
    (nodes : List Node) (hs : ∀ p, (fetchContent p).isSome = true) :
    (∀ (fc : String → Option String) (ns : List Node),
        (getSampleFiles fc ns).length ≤ 5) ∧
    getSampleFiles fetchContent nodes =
      ((sampleCandidates nodes).take 5).map (fun p => (p, (fetchContent p).getD "")) := by
  constructor
  · intro fc ns
    simp only [getSampleFiles, List.length_take]
    omega
  · simp only [getSampleFiles, findAndFetchFiles_eq fetchContent hs nodes, List.map_take]

theorem c5_sample_cap_and_order_witness :
    (sampleCandidates c5Tree).length = 7 ∧
    (getSampleFiles c5Fetch c5Tree).length ≤ 5 ∧
    getSampleFiles c5Fetch c5Tree =
      ((sampleCandidates c5Tree).take 5).map (fun p => (p, (c5Fetch p).getD "")) := by
  have h := c5_sample_cap_and_order c5Fetch c5Tree (fun _ => rfl)
  refine ⟨?_, h.1 c5Fetch c5Tree, h.2⟩
  simp only [c5Tree, sampleCandidates, targetFiles, containsSub]
  decide

theorem firstBrace_spec :
    ∀ (cs : List Char) (i : Nat), firstBrace cs = some i →
      i < cs.length ∧ cs[i]? = some braceOpen
  | [], i, h => by simp [firstBrace] at h
  | c :: rest, i, h => by
    by_cases hc : c = braceOpen
    · rw [firstBrace, if_pos hc] at h
      cases h
      subst hc
      simp
    · rw [firstBrace, if_neg hc] at h
      simp only [Option.map_eq_some'] at h
      obtain ⟨j, hj, rfl⟩ := h
      have ih := firstBrace_spec rest j hj
      simpa using ih

theorem lastBrace_spec :
    ∀ (cs : List Char) (j : Nat), lastBrace cs = some j →
      j < cs.length ∧ cs[j]? = some braceClose
  | [], j, h => by simp [lastBrace] at h
  | c :: rest, j, h => by
    cases hr : lastBrace rest with
    | some k =>
      rw [lastBrace, hr] at h
      cases h
      have ih := lastBrace_spec rest k hr
      simpa using ih
    | none =>
      rw [lastBrace, hr] at h
      by_cases hc : c = braceClose
      · rw [if_pos hc] at h
        cases h
        subst hc
        simp
      · rw [if_neg hc] at h
        exact absurd h (by simp)

/-- C7: for every response text in which no open brace is followed by a
close brace (hence, equivalently, containing no balanced brace span),
`parseAnalysisResult` returns the fixed fallback result — whose
`insights.complexity` is 5 and whose `features` and `recommendations`
are non-empty — for every JSON-parse oracle; being a total function it
propagates no parse error to the caller. -/
theorem c7_narrative_fallback (jsonParse : String → Option JSValue) (text : String)
    (h : ∀ j, j < text.data.length → ∀ i, i < j →
      ¬(text.data[i]? = some braceOpen ∧ text.data[j]? = some braceClose)) :
    parseAnalysisResult jsonParse text = fallbackAnalysisResult ∧
    (parseAnalysisResult jsonParse text).insights.complexity = some 5 ∧
    (parseAnalysisResult jsonParse text).features ≠ [] ∧
    (parseAnalysisResult jsonParse text).recommendations ≠ [] := by
  have hspan : extractJsonSpan text = none := by
    unfold extractJsonSpan
    cases hf : firstBrace text.data with
    | none => rfl
    | some i =>
      cases hl : lastBrace text.data with
      | none => rfl
      | some j =>
        have hfi := firstBrace_spec _ _ hf
        have hlj := lastBrace_spec _ _ hl
        simp only [if_neg]
        rw [if_neg]
        intro hij
        exact h j hlj.1 i hij ⟨hfi.2, hlj.2⟩
  have hres : parseAnalysisResult jsonParse text = fallbackAnalysisResult := by
    unfold parseAnalysisResult
    rw [hspan]
  refine ⟨hres, by rw [hres]; rfl, by rw [hres]; simp [fallbackAnalysisResult],
    by rw [hres]; simp [fallbackAnalysisResult]⟩

theorem c7_narrative_fallback_witness :
    parseAnalysisResult (fun _ => none) "no json here" = fallbackAnalysisResult ∧
    (parseAnalysisResult (fun _ => none) "no json here").insights.complexity = some 5 ∧
    (parseAnalysisResult (fun _ => none) "no json here").features ≠ [] ∧
    (parseAnalysisResult (fun _ => none) "no json here").recommendations ≠ [] :=
  c7_narrative_fallback (fun _ => none) "no json here" (by decide)

/-- C1 as amended: on a successfully parsed object, `insights.complexity`
is the parsed value clamped into [1,10] only when that value is a
non-zero number; a parsed complexity of 0 is falsy in JavaScript, so the
`|| 5` default applies and the result is 5 (not 1); a parsed 15 clamps
to 10; a missing complexity yields 5. -/
theorem c1_complexity_defaulting (jsonParse : String → Option JSValue)
    (text s : String) (v : JSValue) (n : Int)
    (hx : extractJsonSpan text = some s) (hp : jsonParse s = some v) :
    (jsGetOpt (jsGetField v "insights") "complexity" = some (.num n) → n ≠ 0 →
      (parseAnalysisResult jsonParse text).insights.complexity =
        some (max 1 (min 10 n))) ∧
    (jsGetOpt (jsGetField v "insights") "complexity" = some (.num 0) →
      (parseAnalysisResult jsonParse text).insights.complexity = some 5) ∧
    (jsGetOpt (jsGetField v "insights") "complexity" = none →
      (parseAnalysisResult jsonParse text).insights.complexity = some 5) := by
  have hres : parseAnalysisResult jsonParse text = coerceAnalysisResult v := by
    simp only [parseAnalysisResult, hx, hp]
  rw [hres]
  refine ⟨?_, ?_, ?_⟩
  · intro hfield hn
    have ht : truthy (.num n) = true := by simp [truthy, hn]
    simp [coerceAnalysisResult, clampedComplexity, hfield, jsOr, ht, toNumber]
  · intro hfield
    simp [coerceAnalysisResult, clampedComplexity, hfield, jsOr, truthy, toNumber]
  · intro hfield
    simp [coerceAnalysisResult, clampedComplexity, hfield, jsOr, toNumber]

/-- C1 counterexample: the response whose JSON span parses to
`insights.complexity = 0` produces a result complexity of 5, not the 1
demanded by the claim's clamp-to-[1,10] reading: JavaScript `0 || 5`
takes the default. -/
theorem c1_counterexample :
    (parseAnalysisResult c1ParseZero c1TextZero).insights.complexity = some 5 ∧
    (parseAnalysisResult c1ParseZero c1TextZero).insights.complexity ≠ some 1 := by
  exact ⟨by decide, by decide⟩

theorem c1_complexity_defaulting_witness :
    (parseAnalysisResult c1ParseFifteen c1TextFifteen).insights.complexity = some 10 := by
  have h := (c1_complexity_defaulting c1ParseFifteen c1TextFifteen
    c1TextFifteen c1ParsedFifteen 15 (by decide) rfl).1 rfl (by decide)
  simpa using h
